import Mathlib

/-!
Verification of the command resolution and execution engine of the `insignia`
audio-tag CLI (src/lib.rs).  The resolver (`Config::new`) is embedded as
`resolve`, the executor (`Config::exec`) as `execFiles`.  External
collaborators (the getopts argument parser, the lofty tag store, the image
crate's format sniffer, the file system, stdin/stdout) are represented by an
explicit environment of pure functions.
-/

namespace Insignia

/-- The seven editable attributes plus the embedded cover image
(src/lib.rs, `enum Field`). -/
inductive Field
  | Track
  | Year
  | Disc
  | Title
  | Artist
  | Album
  | AlbumArtist
  | Image
deriving DecidableEq, Repr

/-- Payload carried by a `Set` command (src/lib.rs, `enum Data`). -/
inductive Data
  | Str (s : String)
  | Int (i : Int)
  | File (s : String)
  | StdIn
deriving DecidableEq, Repr

/-- A resolved field operation (src/lib.rs, `enum Command`). -/
inductive Command
  | Print (f : Field)
  | Clear (f : Field)
  | Set (f : Field) (d : Data)
deriving DecidableEq, Repr

/-- Failure value returned by resolution and execution
(src/lib.rs, `struct Error`): an exit code and the string printed on exit. -/
structure Error where
  error_code : Int
  error_str : String
deriving DecidableEq, Repr

/-- The brief usage line (src/lib.rs, `Error::new`).  The full option listing
appended by `Options::usage` belongs to the excluded getopts collaborator and
is modelled by the brief line alone. -/
def usageText (name : String) : String :=
  "Usage: " ++ name ++ " [options] <FILE(s)>"

/-- src/lib.rs `str_to_field`: canonical field names for `--clear`. -/
def str_to_field (s : String) : Option Field :=
  match s with
  | "track" => some Field.Track
  | "year" => some Field.Year
  | "disc" => some Field.Disc
  | "title" => some Field.Title
  | "artist" => some Field.Artist
  | "album" => some Field.Album
  | "albumartist" => some Field.AlbumArtist
  | "image" => some Field.Image
  | _ => none

/-- src/lib.rs `field_to_str`. -/
def field_to_str (f : Field) : String :=
  match f with
  | Field.Track => "track"
  | Field.Year => "year"
  | Field.Disc => "disc"
  | Field.Title => "title"
  | Field.Artist => "artist"
  | Field.Album => "album"
  | Field.AlbumArtist => "albumartist"
  | Field.Image => "image"

/-- Result of getopts parsing, the excluded argument-parser layer: for each
`optflagopt` option, `none` means absent, `some none` present without a value,
`some (some s)` present with value `s`; `clear` collects the repeatable
`--clear` values in order and `free` the free (file path) arguments. -/
structure Matches where
  help : Bool
  clear : List String
  track : Option (Option String)
  year : Option (Option String)
  disc : Option (Option String)
  title : Option (Option String)
  artist : Option (Option String)
  album : Option (Option String)
  albumartist : Option (Option String)
  comment : Option (Option String)
  image : Option (Option String)
  free : List String
deriving DecidableEq, Repr

/-- Strip leading and trailing whitespace, as Rust's `str::trim` does
(src/lib.rs applies it before integer parsing). -/
def rustTrim (s : String) : String :=
  String.mk (((s.data.dropWhile Char.isWhitespace).reverse.dropWhile
    Char.isWhitespace).reverse)

/-- Accumulate the value of a base-10 digit string; `none` on a non-digit. -/
def digitsVal : List Char → Nat → Option Nat
  | [], acc => some acc
  | c :: rest, acc =>
    if '0' ≤ c ∧ c ≤ '9' then digitsVal rest (acc * 10 + (c.toNat - 48))
    else none

/-- Rust's `i32::from_str_radix(s, 10)`: an optional sign, then one or more
decimal digits, rejecting values outside the i32 range. -/
def parseI32 (s : String) : Option Int :=
  match s.data with
  | [] => none
  | '+' :: rest =>
    if rest = [] then none
    else (digitsVal rest 0).bind fun n =>
      if n ≤ 2147483647 then some (n : Int) else none
  | '-' :: rest =>
    if rest = [] then none
    else (digitsVal rest 0).bind fun n =>
      if n ≤ 2147483648 then some (-(n : Int)) else none
  | cs =>
    (digitsVal cs 0).bind fun n =>
      if n ≤ 2147483647 then some (n : Int) else none

/-- Resolver step for one integer field option (`track`, `year`, `disc`
blocks of `Config::new`): absent gives no command, bare presence gives
`Print`, a value is trimmed and parsed as i32 (exit code 3 on failure). -/
def intFieldCmd (fd : Field) (fname : String) :
    Option (Option String) → Except Error (List Command)
  | none => Except.ok []
  | some none => Except.ok [Command.Print fd]
  | some (some s) =>
    match parseI32 (rustTrim s) with
    | some i => Except.ok [Command.Set fd (Data.Int i)]
    | none => Except.error
        { error_code := 3
          error_str := "\x27track\x27, \x27year\x27, and \x27disc\x27 feeds need to be integers. (Error on \x27" ++ fname ++ "\x27 field)" }

/-- Resolver step for one string field option (`title`, `artist`, `album`,
`albumartist` blocks of `Config::new`). -/
def strFieldCmd (fd : Field) : Option (Option String) → List Command
  | none => []
  | some none => [Command.Print fd]
  | some (some s) => [Command.Set fd (Data.Str s)]

/-- Resolver step for the `image` option (`Config::new`): `-` means stdin,
any other value must name an existing file (exit code 2 otherwise). -/
def imageFieldCmd (isFile : String → Bool) :
    Option (Option String) → Except Error (List Command)
  | none => Except.ok []
  | some none => Except.ok [Command.Print Field.Image]
  | some (some s) =>
    if s ≠ "-" then
      if !(isFile s) then
        Except.error
          { error_code := 2
            error_str := "File " ++ s ++ " does not exist, is a broken symlink, or we may not have valid permissions" }
      else Except.ok [Command.Set Field.Image (Data.File s)]
    else Except.ok [Command.Set Field.Image Data.StdIn]

/-- The field-option phase of `Config::new`: the eight options are examined
in the fixed source order track, year, disc, title, artist, album,
albumartist, image, each contributing at most one command.  The `comment`
option is registered with getopts but never examined here. -/
def fieldCommands (isFile : String → Bool) (m : Matches) :
    Except Error (List Command) :=
  match intFieldCmd Field.Track "track" m.track with
  | Except.error e => Except.error e
  | Except.ok c1 =>
    match intFieldCmd Field.Year "year" m.year with
    | Except.error e => Except.error e
    | Except.ok c2 =>
      match intFieldCmd Field.Disc "disc" m.disc with
      | Except.error e => Except.error e
      | Except.ok c3 =>
        match imageFieldCmd isFile m.image with
        | Except.error e => Except.error e
        | Except.ok c8 =>
          Except.ok (c1 ++ c2 ++ c3 ++ strFieldCmd Field.Title m.title ++
            strFieldCmd Field.Artist m.artist ++
            strFieldCmd Field.Album m.album ++
            strFieldCmd Field.AlbumArtist m.albumartist ++ c8)

/-- The fields referenced by `Set` or `Print` commands (the `used` hash set
of `Config::new`); `Clear` commands contribute nothing. -/
def usedFields : List Command → List Field
  | [] => []
  | Command.Set f _ :: cs => f :: usedFields cs
  | Command.Print f :: cs => f :: usedFields cs
  | Command.Clear _ :: cs => usedFields cs

/-- The `--clear` phase of `Config::new`: each requested name must resolve to
a known field (exit code 4 otherwise) that no `Set`/`Print` command already
uses (exit code 5 otherwise); surviving names become `Clear` commands in
option order. -/
def processClear (used : List Field) : List String → Except Error (List Command)
  | [] => Except.ok []
  | s :: rest =>
    match str_to_field s with
    | some f =>
      if f ∈ used then
        Except.error
          { error_code := 5
            error_str := "Cannot clear and set/print field \x27" ++ s ++ "\x27 at the same time" }
      else
        match processClear used rest with
        | Except.error e => Except.error e
        | Except.ok cs => Except.ok (Command.Clear f :: cs)
    | none =>
      Except.error
        { error_code := 4
          error_str := "Cannot clear \x27" ++ s ++ "\x27 field because it does not exist!" }

/-- `Config::new` (src/lib.rs): after the opaque getopts parse, check that
free arguments exist (exit 6 when none, exit 2 on a missing file), honour
`--help` (exit 0 with usage), build the field commands, then append the
clear commands; `isFile` stands for `Path::is_file`. -/
def resolve (isFile : String → Bool) (name : String) (m : Matches) :
    Except Error (List Command × List String) :=
  if m.free.length = 0 then
    Except.error { error_code := 6, error_str := "There were no files specified." }
  else
    match m.free.find? (fun f => !(isFile f)) with
    | some f =>
      Except.error
        { error_code := 2
          error_str := "File " ++ f ++ " does not exist, is a broken symlink, or we may not have valid permissions" }
    | none =>
      if m.help then
        Except.error { error_code := 0, error_str := usageText name }
      else
        match fieldCommands isFile m with
        | Except.error e => Except.error e
        | Except.ok cmds =>
          match processClear (usedFields cmds) m.clear with
          | Except.error e => Except.error e
          | Except.ok ccs => Except.ok (cmds ++ ccs, m.free)

/-- Supported cover-image media types (the lofty `MimeType` values used in
src/lib.rs). -/
inductive MimeType
  | Png
  | Jpeg
  | Tiff
  | Bmp
  | Gif
deriving DecidableEq, Repr

/-- Verdict of the image crate's format sniffer (`Reader::format`); `Other`
stands for any detected format beyond the five the program accepts. -/
inductive ImageFormat
  | Png
  | Jpeg
  | Tiff
  | Bmp
  | Gif
  | Other
deriving DecidableEq, Repr

/-- Outcome of opening and reading an image file (`File::open` then
`read_to_end` in the `Field::Image` branch of `Config::exec`). -/
inductive ReadResult
  | openErr
  | readErr
  | bytes (b : List Nat)
deriving DecidableEq, Repr

/-- The state of one file's tag container as exposed by the lofty Tag Store
collaborator: disc/track are unsigned, year is signed, the cover is raw
bytes with a media type. -/
structure TagData where
  disc : Option Nat
  track : Option Nat
  year : Option Int
  title : Option String
  artist : Option String
  album : Option String
  albumartist : Option String
  cover : Option (List Nat × MimeType)
deriving DecidableEq, Repr

/-- One item written to standard output: a text chunk or raw image bytes. -/
inductive Out
  | str (s : String)
  | bytes (b : List Nat)
deriving DecidableEq, Repr

/-- The pure environment standing for `Config::exec`'s collaborators:
the Tag Store (`openTag`, and `writeOk` telling whether `write_to_path`
succeeds), the file system (`readFileBytes`), standard input
(`stdinBytes`, `none` when reading fails), the Image Sniffer (`sniff`) and
whether writing image bytes to standard output succeeds (`stdoutOk`). -/
structure Env where
  openTag : String → Option TagData
  writeOk : String → Bool
  readFileBytes : String → ReadResult
  stdinBytes : Option (List Nat)
  sniff : List Nat → Option ImageFormat
  stdoutOk : Bool

/-- src/lib.rs `printout`: the eight-line field summary (note the source's
"Album Arist" label spelling). -/
def printout (t : TagData) : String :=
  "Disc: " ++ toString (t.disc.getD 0) ++ "\n" ++
  "Track: " ++ toString (t.track.getD 0) ++ "\n" ++
  "Title: " ++ t.title.getD "" ++ "\n" ++
  "Artist: " ++ t.artist.getD "" ++ "\n" ++
  "Album: " ++ t.album.getD "" ++ "\n" ++
  "Album Arist: " ++ t.albumartist.getD "" ++ "\n" ++
  "Image: " ++ (match t.cover with
                | some _ => "Present"
                | none => "No image") ++ "\n" ++
  "Year: " ++ toString (t.year.getD 0) ++ "\n"

/-- Loop state of the per-file command loop in `Config::exec`: the open tag
session, the `need_to_write` and `did_print` flags and the output emitted so
far. -/
structure LoopState where
  tag : TagData
  need_to_write : Bool
  did_print : Bool
  out : List Out
deriving Repr

/-- Result of applying one command (or a prefix of the command list): either
the next loop state, a returned `Error`, or a reached `panic!` branch; the
failing cases keep the output already emitted. -/
inductive StepRes
  | ok (st : LoopState)
  | failed (e : Error) (st : LoopState)
  | panicked (msg : String) (st : LoopState)

/-- Byte acquisition for `Set(Image, _)` (src/lib.rs lines 413-439): read
the named file or standard input; any other `Data` variant reaches a
`panic!`. -/
inductive BytesRes
  | ok (b : List Nat)
  | failed (e : Error)
  | panicked (msg : String)
deriving Repr

/-- The buffer-filling part of the `Field::Image` set branch of
`Config::exec`. -/
def getImageBytes (env : Env) : Data → BytesRes
  | Data.File s =>
    match env.readFileBytes s with
    | ReadResult.openErr =>
      BytesRes.failed { error_code := 2, error_str := "Issue when opening image file." }
    | ReadResult.readErr =>
      BytesRes.failed { error_code := 2, error_str := "Issue when reading image file." }
    | ReadResult.bytes b => BytesRes.ok b
  | Data.StdIn =>
    match env.stdinBytes with
    | none => BytesRes.failed { error_code := 2, error_str := "Issue when reading stdin." }
    | some b => BytesRes.ok b
  | _ => BytesRes.panicked "d isn\x27t a file or stdin (image)"

/-- The `ImageFormat` to `MimeType` translation in the `Field::Image` set
branch: exactly PNG, JPEG, TIFF, BMP and GIF are accepted. -/
def sniffMime : Option ImageFormat → Option MimeType
  | some ImageFormat.Png => some MimeType.Png
  | some ImageFormat.Jpeg => some MimeType.Jpeg
  | some ImageFormat.Tiff => some MimeType.Tiff
  | some ImageFormat.Bmp => some MimeType.Bmp
  | some ImageFormat.Gif => some MimeType.Gif
  | _ => none

/-- The `Command::Clear` dispatch of `Config::exec`: remove the field's
stored value. -/
def clearField (t : TagData) : Field → TagData
  | Field.Disc => { t with disc := none }
  | Field.Track => { t with track := none }
  | Field.Year => { t with year := none }
  | Field.Title => { t with title := none }
  | Field.Artist => { t with artist := none }
  | Field.Album => { t with album := none }
  | Field.AlbumArtist => { t with albumartist := none }
  | Field.Image => { t with cover := none }

/-- One iteration of the command loop of `Config::exec`.  `Set` marks
`need_to_write` and dispatches on the field, with a `panic!` when the `Data`
variant does not match the field's kind; integer counts are clamped with
`cmp::max(i, 0)` before the `u32` store, the year is stored signed; the
image branch reads the payload, sniffs it and stores bytes plus media type.
`Clear` marks `need_to_write` and removes the field.  `Print` marks
`did_print` and emits the stored value or its default; a present cover is
dumped as raw bytes followed by a newline. -/
def applyCommand (env : Env) (st0 : LoopState) : Command → StepRes
  | Command.Set f d =>
    let st := { st0 with need_to_write := true }
    match f, d with
    | Field.Disc, Data.Int i =>
      StepRes.ok { st with tag := { st.tag with disc := some (max i 0).toNat } }
    | Field.Disc, _ => StepRes.panicked "d isn\x27t a int (disc)" st
    | Field.Track, Data.Int i =>
      StepRes.ok { st with tag := { st.tag with track := some (max i 0).toNat } }
    | Field.Track, _ => StepRes.panicked "d isn\x27t a int (track)" st
    | Field.Year, Data.Int i =>
      StepRes.ok { st with tag := { st.tag with year := some i } }
    | Field.Year, _ => StepRes.panicked "d isn\x27t a int (year)" st
    | Field.Title, Data.Str s =>
      StepRes.ok { st with tag := { st.tag with title := some s } }
    | Field.Title, _ => StepRes.panicked "d isn\x27t a string (title)" st
    | Field.Artist, Data.Str s =>
      StepRes.ok { st with tag := { st.tag with artist := some s } }
    | Field.Artist, _ => StepRes.panicked "d isn\x27t a string (artist)" st
    | Field.Album, Data.Str s =>
      StepRes.ok { st with tag := { st.tag with album := some s } }
    | Field.Album, _ => StepRes.panicked "d isn\x27t a string (album)" st
    | Field.AlbumArtist, Data.Str s =>
      StepRes.ok { st with tag := { st.tag with albumartist := some s } }
    | Field.AlbumArtist, _ => StepRes.panicked "d isn\x27t a string (albumartist)" st
    | Field.Image, d =>
      match getImageBytes env d with
      | BytesRes.failed e => StepRes.failed e st
      | BytesRes.panicked m => StepRes.panicked m st
      | BytesRes.ok b =>
        match sniffMime (env.sniff b) with
        | none =>
          StepRes.failed
            { error_code := 2
              error_str := "Unsupported image format (Supported: Png, Jpeg, Tiff, Bmp, Gif)" } st
        | some mt =>
          StepRes.ok { st with tag := { st.tag with cover := some (b, mt) } }
  | Command.Clear f =>
    StepRes.ok { st0 with need_to_write := true, tag := clearField st0.tag f }
  | Command.Print f =>
    let st := { st0 with did_print := true }
    match f with
    | Field.Disc =>
      StepRes.ok { st with out := st.out ++ [Out.str (toString (st.tag.disc.getD 0) ++ "\n")] }
    | Field.Track =>
      StepRes.ok { st with out := st.out ++ [Out.str (toString (st.tag.track.getD 0) ++ "\n")] }
    | Field.Year =>
      StepRes.ok { st with out := st.out ++ [Out.str (toString (st.tag.year.getD 0) ++ "\n")] }
    | Field.Title =>
      StepRes.ok { st with out := st.out ++ [Out.str (st.tag.title.getD "" ++ "\n")] }
    | Field.Artist =>
      StepRes.ok { st with out := st.out ++ [Out.str (st.tag.artist.getD "" ++ "\n")] }
    | Field.Album =>
      StepRes.ok { st with out := st.out ++ [Out.str (st.tag.album.getD "" ++ "\n")] }
    | Field.AlbumArtist =>
      StepRes.ok { st with out := st.out ++ [Out.str (st.tag.albumartist.getD "" ++ "\n")] }
    | Field.Image =>
      match st.tag.cover with
      | some p =>
        if env.stdoutOk then
          StepRes.ok { st with out := st.out ++ [Out.bytes p.1, Out.str "\n"] }
        else
          StepRes.failed
            { error_code := 2
              error_str := "Error when trying to print image to stdout" } st
      | none => StepRes.ok { st with out := st.out ++ [Out.str "\n"] }

/-- The command loop of `Config::exec` for one file, stopping at the first
failure or panic. -/
def runCommands (env : Env) (st : LoopState) : List Command → StepRes
  | [] => StepRes.ok st
  | c :: cs =>
    match applyCommand env st c with
    | StepRes.ok st2 => runCommands env st2 cs
    | r => r

/-- Termination status of `Config::exec`: normal return, an `Error` return,
or a reached `panic!`. -/
inductive ExecStatus
  | done
  | failed (e : Error)
  | panicked (msg : String)
deriving DecidableEq, Repr

/-- Whether an execution status is a reached `panic!` branch. -/
def ExecStatus.isPanic : ExecStatus → Bool
  | ExecStatus.panicked _ => true
  | _ => false

/-- Observable outcome of `Config::exec`: final status, everything written to
standard output in order, and the `write_to_path` write-backs performed
(file path paired with the tag state written), in order. -/
structure ExecOutcome where
  status : ExecStatus
  output : List Out
  writes : List (String × TagData)
deriving Repr

/-- `Config::exec` (src/lib.rs): for each file in order, open its tag
container (exit 7 on failure); with an empty command list print the full
summary; otherwise run the command loop, persist the session when
`need_to_write` is set (exit 2 when the write fails) and print the summary
when no `Print` command ran.  A failure aborts the remaining files. -/
def execFiles (env : Env) (commands : List Command) : List String → ExecOutcome
  | [] => { status := ExecStatus.done, output := [], writes := [] }
  | f :: fs =>
    match env.openTag f with
    | none =>
      { status := ExecStatus.failed
          { error_code := 7, error_str := "Failure to open `" ++ f ++ "` for editing" }
        output := [], writes := [] }
    | some t =>
      if commands.isEmpty then
        let rest := execFiles env commands fs
        { rest with output := Out.str (printout t ++ "\n") :: rest.output }
      else
        match runCommands env { tag := t, need_to_write := false, did_print := false, out := [] } commands with
        | StepRes.failed e st =>
          { status := ExecStatus.failed e, output := st.out, writes := [] }
        | StepRes.panicked m st =>
          { status := ExecStatus.panicked m, output := st.out, writes := [] }
        | StepRes.ok st =>
          if st.need_to_write then
            if env.writeOk f then
              let out2 := if st.did_print then st.out
                else st.out ++ [Out.str (printout st.tag ++ "\n")]
              let rest := execFiles env commands fs
              { status := rest.status, output := out2 ++ rest.output
                writes := (f, st.tag) :: rest.writes }
            else
              { status := ExecStatus.failed
                  { error_code := 2, error_str := "Failed to write new tags to " ++ f }
                output := st.out, writes := [] }
          else
            let out2 := if st.did_print then st.out
              else st.out ++ [Out.str (printout st.tag ++ "\n")]
            let rest := execFiles env commands fs
            { status := rest.status, output := out2 ++ rest.output
              writes := rest.writes }

/-- Spec-side description (for the order claim) of the command an integer
field option contributes, total in the value: under a successful resolve the
stored integer is the parse result, so `getD 0` is never exercised. -/
def specIntPiece (fd : Field) : Option (Option String) → List Command
  | none => []
  | some none => [Command.Print fd]
  | some (some s) => [Command.Set fd (Data.Int ((parseI32 (rustTrim s)).getD 0))]

/-- Spec-side description (for the order claim) of the command the image
option contributes, without the file-existence check a successful resolve
has already passed. -/
def specImagePiece : Option (Option String) → List Command
  | none => []
  | some none => [Command.Print Field.Image]
  | some (some s) =>
    if s = "-" then [Command.Set Field.Image Data.StdIn]
    else [Command.Set Field.Image (Data.File s)]

/-- Spec-side description of the full `Set`/`Print` part of a resolved
command list: one command per present option, in the fixed field order
Track, Year, Disc, Title, Artist, Album, AlbumArtist, Image. -/
def specFieldCmds (m : Matches) : List Command :=
  specIntPiece Field.Track m.track ++ specIntPiece Field.Year m.year ++
  specIntPiece Field.Disc m.disc ++ strFieldCmd Field.Title m.title ++
  strFieldCmd Field.Artist m.artist ++ strFieldCmd Field.Album m.album ++
  strFieldCmd Field.AlbumArtist m.albumartist ++ specImagePiece m.image

/-- The field of a `Clear` command, `none` for the other shapes. -/
def clearOf : Command → Option Field
  | Command.Clear fd => some fd
  | _ => none

/-- Whether the option belonging to a field is present in the parsed
matches. -/
def optPresent (m : Matches) : Field → Bool
  | Field.Track => m.track.isSome
  | Field.Year => m.year.isSome
  | Field.Disc => m.disc.isSome
  | Field.Title => m.title.isSome
  | Field.Artist => m.artist.isSome
  | Field.Album => m.album.isSome
  | Field.AlbumArtist => m.albumartist.isSome
  | Field.Image => m.image.isSome

/-- The `Field`/`Data` pairing `Config::exec`'s `Set` dispatch expects:
integer fields carry `Int`, string fields `Str`, the image field `File` or
`StdIn`; `Print` and `Clear` carry no payload. -/
def wellTyped : Command → Prop
  | Command.Set Field.Track d => ∃ i, d = Data.Int i
  | Command.Set Field.Year d => ∃ i, d = Data.Int i
  | Command.Set Field.Disc d => ∃ i, d = Data.Int i
  | Command.Set Field.Image d => (∃ s, d = Data.File s) ∨ d = Data.StdIn
  | Command.Set _ d => ∃ s, d = Data.Str s
  | _ => True

/-- Whether a command marks the session as needing a write-back (`Set` and
`Clear` do, `Print` does not). -/
def isMutating : Command → Bool
  | Command.Set _ _ => true
  | Command.Clear _ => true
  | Command.Print _ => false

/-- The matches carry no field option and no clear request, so that
resolution yields an empty command list. -/
def noFieldOptions (m : Matches) : Prop :=
  m.track = none ∧ m.year = none ∧ m.disc = none ∧ m.title = none ∧
  m.artist = none ∧ m.album = none ∧ m.albumartist = none ∧
  m.image = none ∧ m.clear = []

/-- The exit code resolution would hand to the process, `none` on success. -/
def errCode : Except Error (List Command × List String) → Option Int
  | Except.error e => some e.error_code
  | Except.ok _ => none

/-- A value lies in a field's storable domain: integers must parse (after
trimming) as i32 and, for the unsigned Track and Disc counts, be
nonnegative; string fields take any value.  The image field is excluded
from the string-level round trip. -/
def validValue : Field → String → Bool
  | Field.Track, v =>
    match parseI32 (rustTrim v) with
    | some i => decide (0 ≤ i)
    | none => false
  | Field.Disc, v =>
    match parseI32 (rustTrim v) with
    | some i => decide (0 ≤ i)
    | none => false
  | Field.Year, v => (parseI32 (rustTrim v)).isSome
  | Field.Image, _ => false
  | _, _ => true

/-- Matches with no option set and a single free file argument. -/
def baseMatches (file : String) : Matches :=
  { help := false, clear := [], track := none, year := none, disc := none,
    title := none, artist := none, album := none, albumartist := none,
    comment := none, image := none, free := [file] }

/-- Matches carrying exactly one field option with a value: the invocation
that sets one field on one file. -/
def setMatches (fd : Field) (v : String) (file : String) : Matches :=
  match fd with
  | Field.Track => { baseMatches file with track := some (some v) }
  | Field.Year => { baseMatches file with year := some (some v) }
  | Field.Disc => { baseMatches file with disc := some (some v) }
  | Field.Title => { baseMatches file with title := some (some v) }
  | Field.Artist => { baseMatches file with artist := some (some v) }
  | Field.Album => { baseMatches file with album := some (some v) }
  | Field.AlbumArtist => { baseMatches file with albumartist := some (some v) }
  | Field.Image => { baseMatches file with image := some (some v) }

/-- Matches carrying exactly one bare field option: the invocation that
prints one field of one file. -/
def printMatches (fd : Field) (file : String) : Matches :=
  match fd with
  | Field.Track => { baseMatches file with track := some none }
  | Field.Year => { baseMatches file with year := some none }
  | Field.Disc => { baseMatches file with disc := some none }
  | Field.Title => { baseMatches file with title := some none }
  | Field.Artist => { baseMatches file with artist := some none }
  | Field.Album => { baseMatches file with album := some none }
  | Field.AlbumArtist => { baseMatches file with albumartist := some none }
  | Field.Image => { baseMatches file with image := some none }

/-- The environment after a write-back: opening `f` now yields the tag
state `t` that was persisted. -/
def withTag (env : Env) (f : String) (t : TagData) : Env :=
  { env with openTag := fun g => if g = f then some t else env.openTag g }

/-- The line printed back by a bare field option right after the same field
was set from the string `v` (integer fields echo the parsed value). -/
def echoOut : Field → String → List Out
  | Field.Track, v => [Out.str (toString ((parseI32 (rustTrim v)).getD 0) ++ "\n")]
  | Field.Year, v => [Out.str (toString ((parseI32 (rustTrim v)).getD 0) ++ "\n")]
  | Field.Disc, v => [Out.str (toString ((parseI32 (rustTrim v)).getD 0) ++ "\n")]
  | Field.Image, _ => []
  | _, v => [Out.str (v ++ "\n")]

/-- An empty tag container, used by the concrete witnesses. -/
def tagW : TagData :=
  { disc := none, track := none, year := none, title := none, artist := none,
    album := none, albumartist := none, cover := none }

/-- A benign concrete environment for the witnesses: every file opens to an
empty tag container, writes succeed, image payloads read as three bytes
sniffed as PNG. -/
def envW : Env :=
  { openTag := fun _ => some tagW, writeOk := fun _ => true,
    readFileBytes := fun _ => ReadResult.bytes [1, 2, 3],
    stdinBytes := some [9], sniff := fun _ => some ImageFormat.Png,
    stdoutOk := true }

/-- An environment whose sniffer recognises no payload, for the
unsupported-image-format witness. -/
def envNoSniff : Env :=
  { envW with sniff := fun _ => none }

/-- `--help` together with an empty free-argument list: the input on which
the help short-circuit claim fails against the code. -/
def mHelpOnly : Matches :=
  { help := true, clear := [], track := none, year := none, disc := none,
    title := none, artist := none, album := none, albumartist := none,
    comment := none, image := none, free := [] }

/-- A concrete option set exercising one option of each shape for the
order witness: `--track 7 --title --clear album f.mp3`. -/
def mOrderW : Matches :=
  { help := false, clear := ["album"], track := some (some "7"), year := none,
    disc := none, title := some none, artist := none, album := none,
    albumartist := none, comment := none, image := none, free := ["f.mp3"] }

/-- A concrete conflicting option set for the clear/set witness:
`--title foo --clear title f.mp3`. -/
def mConflictW : Matches :=
  { help := false, clear := ["title"], track := none, year := none,
    disc := none, title := some (some "foo"), artist := none, album := none,
    albumartist := none, comment := none, image := none, free := ["f.mp3"] }

theorem intFieldCmd_ok {fd : Field} {nm : String} {o : Option (Option String)}
    {l : List Command} (h : intFieldCmd fd nm o = Except.ok l) :
    l = specIntPiece fd o := by
  match o with
  | none =>
    simp only [intFieldCmd, Except.ok.injEq] at h
    simp [specIntPiece, ← h]
  | some none =>
    simp only [intFieldCmd, Except.ok.injEq] at h
    simp [specIntPiece, ← h]
  | some (some s) =>
    simp only [intFieldCmd] at h
    cases hp : parseI32 (rustTrim s) with
    | none => rw [hp] at h; exact absurd h (by simp)
    | some i =>
      rw [hp] at h
      simp only [Except.ok.injEq] at h
      simp [specIntPiece, hp, ← h]

theorem imageFieldCmd_ok {isFile : String → Bool} {o : Option (Option String)}
    {l : List Command} (h : imageFieldCmd isFile o = Except.ok l) :
    l = specImagePiece o := by
  match o with
  | none =>
    simp only [imageFieldCmd, Except.ok.injEq] at h
    simp [specImagePiece, ← h]
  | some none =>
    simp only [imageFieldCmd, Except.ok.injEq] at h
    simp [specImagePiece, ← h]
  | some (some s) =>
    simp only [imageFieldCmd] at h
    by_cases hs : s = "-"
    · simp only [hs, ne_eq, not_true_eq_false, if_false, ite_false,
        Except.ok.injEq] at h
      simp [specImagePiece, hs, ← h]
    · rw [if_pos hs] at h
      cases hf : isFile s with
      | false => rw [hf] at h; exact absurd h (by simp)
      | true =>
        rw [hf] at h
        simp only [Bool.not_true, Bool.false_eq_true, if_false,
          Except.ok.injEq] at h
        simp [specImagePiece, hs, ← h]

theorem fieldCommands_ok {isFile : String → Bool} {m : Matches}
    {l : List Command} (h : fieldCommands isFile m = Except.ok l) :
    l = specFieldCmds m := by
  unfold fieldCommands at h
  cases h1 : intFieldCmd Field.Track "track" m.track with
  | error e => rw [h1] at h; exact absurd h (by simp)
  | ok c1 =>
    rw [h1] at h
    cases h2 : intFieldCmd Field.Year "year" m.year with
    | error e => rw [h2] at h; exact absurd h (by simp)
    | ok c2 =>
      rw [h2] at h
      cases h3 : intFieldCmd Field.Disc "disc" m.disc with
      | error e => rw [h3] at h; exact absurd h (by simp)
      | ok c3 =>
        rw [h3] at h
        cases h8 : imageFieldCmd isFile m.image with
        | error e => rw [h8] at h; exact absurd h (by simp)
        | ok c8 =>
          rw [h8] at h
          simp only [Except.ok.injEq] at h
          rw [← h, specFieldCmds, intFieldCmd_ok h1, intFieldCmd_ok h2,
            intFieldCmd_ok h3, imageFieldCmd_ok h8]

theorem usedFields_append (a b : List Command) :
    usedFields (a ++ b) = usedFields a ++ usedFields b := by
  induction a with
  | nil => rfl
  | cons c cs ih => cases c <;> simp [usedFields, ih]

theorem mem_usedFields_of_print {l : List Command} {fd : Field}
    (h : Command.Print fd ∈ l) : fd ∈ usedFields l := by
  induction l with
  | nil => cases h
  | cons c cs ih =>
    rcases List.mem_cons.mp h with he | hm
    · rw [← he]; simp [usedFields]
    · cases c <;> simp [usedFields] <;> try exact Or.inr (ih hm)
      exact ih hm

theorem mem_usedFields_of_set {l : List Command} {fd : Field} {d : Data}
    (h : Command.Set fd d ∈ l) : fd ∈ usedFields l := by
  induction l with
  | nil => cases h
  | cons c cs ih =>
    rcases List.mem_cons.mp h with he | hm
    · rw [← he]; simp [usedFields]
    · cases c <;> simp [usedFields] <;> try exact Or.inr (ih hm)
      exact ih hm

theorem usedFields_specIntPiece (fd : Field) (o : Option (Option String)) :
    usedFields (specIntPiece fd o) = if o.isSome then [fd] else [] := by
  match o with
  | none => rfl
  | some none => rfl
  | some (some s) => rfl

theorem usedFields_strFieldCmd (fd : Field) (o : Option (Option String)) :
    usedFields (strFieldCmd fd o) = if o.isSome then [fd] else [] := by
  match o with
  | none => rfl
  | some none => rfl
  | some (some s) => rfl

theorem usedFields_specImagePiece (o : Option (Option String)) :
    usedFields (specImagePiece o) = if o.isSome then [Field.Image] else [] := by
  match o with
  | none => rfl
  | some none => rfl
  | some (some s) =>
    by_cases hs : s = "-" <;> simp [specImagePiece, hs, usedFields]

theorem mem_usedFields_specFieldCmds {m : Matches} {fd : Field}
    (h : optPresent m fd = true) : fd ∈ usedFields (specFieldCmds m) := by
  rw [specFieldCmds, usedFields_append, usedFields_append, usedFields_append,
    usedFields_append, usedFields_append, usedFields_append, usedFields_append]
  cases fd <;> simp only [optPresent] at h <;>
    simp [usedFields_specIntPiece, usedFields_strFieldCmd,
      usedFields_specImagePiece, h]

theorem mem_specIntPiece {fd : Field} {o : Option (Option String)}
    {c : Command} (h : c ∈ specIntPiece fd o) :
    c = Command.Print fd ∨ ∃ i, c = Command.Set fd (Data.Int i) := by
  match o with
  | none => cases h
  | some none => simp [specIntPiece] at h; exact Or.inl h
  | some (some s) => simp [specIntPiece] at h; exact Or.inr ⟨_, h⟩

theorem mem_strFieldCmd {fd : Field} {o : Option (Option String)}
    {c : Command} (h : c ∈ strFieldCmd fd o) :
    c = Command.Print fd ∨ ∃ s, c = Command.Set fd (Data.Str s) := by
  match o with
  | none => cases h
  | some none => simp [strFieldCmd] at h; exact Or.inl h
  | some (some s) => simp [strFieldCmd] at h; exact Or.inr ⟨_, h⟩

theorem mem_specImagePiece {o : Option (Option String)} {c : Command}
    (h : c ∈ specImagePiece o) :
    c = Command.Print Field.Image ∨
      (∃ s, c = Command.Set Field.Image (Data.File s)) ∨
      c = Command.Set Field.Image Data.StdIn := by
  match o with
  | none => cases h
  | some none => simp [specImagePiece] at h; exact Or.inl h
  | some (some s) =>
    by_cases hs : s = "-" <;> simp [specImagePiece, hs] at h
    · exact Or.inr (Or.inr h)
    · exact Or.inr (Or.inl ⟨_, h⟩)

theorem mem_specFieldCmds {m : Matches} {c : Command}
    (h : c ∈ specFieldCmds m) :
    (∃ fd, c = Command.Print fd) ∨ ∃ fd d, c = Command.Set fd d := by
  rw [specFieldCmds] at h
  simp only [List.mem_append] at h
  rcases h with ((((((h | h) | h) | h) | h) | h) | h) | h
  · rcases mem_specIntPiece h with h | ⟨i, h⟩
    exacts [Or.inl ⟨_, h⟩, Or.inr ⟨_, _, h⟩]
  · rcases mem_specIntPiece h with h | ⟨i, h⟩
    exacts [Or.inl ⟨_, h⟩, Or.inr ⟨_, _, h⟩]
  · rcases mem_specIntPiece h with h | ⟨i, h⟩
    exacts [Or.inl ⟨_, h⟩, Or.inr ⟨_, _, h⟩]
  · rcases mem_strFieldCmd h with h | ⟨s, h⟩
    exacts [Or.inl ⟨_, h⟩, Or.inr ⟨_, _, h⟩]
  · rcases mem_strFieldCmd h with h | ⟨s, h⟩
    exacts [Or.inl ⟨_, h⟩, Or.inr ⟨_, _, h⟩]
  · rcases mem_strFieldCmd h with h | ⟨s, h⟩
    exacts [Or.inl ⟨_, h⟩, Or.inr ⟨_, _, h⟩]
  · rcases mem_strFieldCmd h with h | ⟨s, h⟩
    exacts [Or.inl ⟨_, h⟩, Or.inr ⟨_, _, h⟩]
  · rcases mem_specImagePiece h with h | ⟨s, h⟩ | h
    exacts [Or.inl ⟨_, h⟩, Or.inr ⟨_, _, h⟩, Or.inr ⟨_, _, h⟩]

theorem clear_not_mem_specFieldCmds {m : Matches} {fd : Field} :
    Command.Clear fd ∉ specFieldCmds m := by
  intro h
  rcases mem_specFieldCmds h with ⟨fd2, h2⟩ | ⟨fd2, d2, h2⟩ <;> cases h2

theorem processClear_ok_map (used : List Field) (cl : List String) :
    ∀ ccs, processClear used cl = Except.ok ccs →
      cl.map str_to_field = ccs.map clearOf := by
  induction cl with
  | nil =>
    intro ccs h
    simp only [processClear, Except.ok.injEq] at h
    rw [← h]; rfl
  | cons a rest ih =>
    intro ccs h
    simp only [processClear] at h
    cases hf : str_to_field a with
    | none => rw [hf] at h; exact absurd h (by simp)
    | some f0 =>
      rw [hf] at h
      dsimp only at h
      by_cases hmem : f0 ∈ used
      · rw [if_pos hmem] at h; exact absurd h (by simp)
      · rw [if_neg hmem] at h
        cases hr : processClear used rest with
        | error e => rw [hr] at h; exact absurd h (by simp)
        | ok cs =>
          rw [hr] at h
          simp only [Except.ok.injEq] at h
          rw [← h]
          simp [clearOf, hf, ih cs hr]

theorem processClear_ok_clears (used : List Field) (cl : List String) :
    ∀ ccs, processClear used cl = Except.ok ccs →
      ∀ c ∈ ccs, ∃ fd, c = Command.Clear fd ∧ fd ∉ used := by
  induction cl with
  | nil =>
    intro ccs h
    simp only [processClear, Except.ok.injEq] at h
    rw [← h]; intro c hc; cases hc
  | cons a rest ih =>
    intro ccs h
    simp only [processClear] at h
    cases hf : str_to_field a with
    | none => rw [hf] at h; exact absurd h (by simp)
    | some f0 =>
      rw [hf] at h
      dsimp only at h
      by_cases hmem : f0 ∈ used
      · rw [if_pos hmem] at h; exact absurd h (by simp)
      · rw [if_neg hmem] at h
        cases hr : processClear used rest with
        | error e => rw [hr] at h; exact absurd h (by simp)
        | ok cs =>
          rw [hr] at h
          simp only [Except.ok.injEq] at h
          rw [← h]
          intro c hc
          rcases List.mem_cons.mp hc with he | hm
          · exact ⟨f0, he, hmem⟩
          · exact ih cs hr c hm

theorem processClear_conflict (used : List Field) (cl : List String) :
    (∀ s2 ∈ cl, (str_to_field s2).isSome = true) →
    ∀ s fd, s ∈ cl → str_to_field s = some fd → fd ∈ used →
    ∃ msg, processClear used cl =
      Except.error { error_code := 5, error_str := msg } := by
  induction cl with
  | nil => intro _ s fd hs; cases hs
  | cons a rest ih =>
    intro hknown s fd hs hsf hused
    obtain ⟨f0, hf0⟩ := Option.isSome_iff_exists.mp
      (hknown a (List.mem_cons_self a rest))
    by_cases hmem : f0 ∈ used
    · refine ⟨"Cannot clear and set/print field \x27" ++ a ++ "\x27 at the same time", ?_⟩
      simp [processClear, hf0, hmem]
    · have hsrest : s ∈ rest := by
        rcases List.mem_cons.mp hs with he | hm
        · rw [← he] at hf0; rw [hsf] at hf0
          injection hf0 with hf0
          exact absurd hused (hf0 ▸ hmem)
        · exact hm
      obtain ⟨msg, hmsg⟩ := ih
        (fun x hx => hknown x (List.mem_cons_of_mem a hx)) s fd hsrest hsf hused
      exact ⟨msg, by simp [processClear, hf0, hmem, hmsg]⟩

theorem resolve_ok {isFile : String → Bool} {name : String} {m : Matches}
    {cmds : List Command} {files : List String}
    (h : resolve isFile name m = Except.ok (cmds, files)) :
    ∃ ccs, fieldCommands isFile m = Except.ok (specFieldCmds m) ∧
      processClear (usedFields (specFieldCmds m)) m.clear = Except.ok ccs ∧
      cmds = specFieldCmds m ++ ccs ∧ files = m.free := by
  unfold resolve at h
  by_cases h0 : m.free.length = 0
  · rw [if_pos h0] at h; exact absurd h (by simp)
  · rw [if_neg h0] at h
    cases hfind : m.free.find? (fun f => !(isFile f)) with
    | some f => rw [hfind] at h; dsimp only at h; exact absurd h (by simp)
    | none =>
      rw [hfind] at h
      dsimp only at h
      by_cases hh : m.help = true
      · rw [if_pos hh] at h; exact absurd h (by simp)
      · rw [if_neg hh] at h
        cases hfc : fieldCommands isFile m with
        | error e => rw [hfc] at h; dsimp only at h; exact absurd h (by simp)
        | ok fcs =>
          rw [hfc] at h
          dsimp only at h
          cases hpc : processClear (usedFields fcs) m.clear with
          | error e => rw [hpc] at h; dsimp only at h; exact absurd h (by simp)
          | ok ccs =>
            rw [hpc] at h
            dsimp only at h
            simp only [Except.ok.injEq, Prod.mk.injEq] at h
            have hspec : fcs = specFieldCmds m := fieldCommands_ok hfc
            subst hspec
            exact ⟨ccs, rfl, hpc, h.1.symm, h.2.symm⟩

theorem wellTyped_specFieldCmds {m : Matches} :
    ∀ c ∈ specFieldCmds m, wellTyped c := by
  intro c hc
  rw [specFieldCmds] at hc
  simp only [List.mem_append] at hc
  rcases hc with ((((((h | h) | h) | h) | h) | h) | h) | h
  · rcases mem_specIntPiece h with rfl | ⟨i, rfl⟩ <;> simp [wellTyped]
  · rcases mem_specIntPiece h with rfl | ⟨i, rfl⟩ <;> simp [wellTyped]
  · rcases mem_specIntPiece h with rfl | ⟨i, rfl⟩ <;> simp [wellTyped]
  · rcases mem_strFieldCmd h with rfl | ⟨s, rfl⟩ <;> simp [wellTyped]
  · rcases mem_strFieldCmd h with rfl | ⟨s, rfl⟩ <;> simp [wellTyped]
  · rcases mem_strFieldCmd h with rfl | ⟨s, rfl⟩ <;> simp [wellTyped]
  · rcases mem_strFieldCmd h with rfl | ⟨s, rfl⟩ <;> simp [wellTyped]
  · rcases mem_specImagePiece h with rfl | ⟨s, rfl⟩ | rfl <;> simp [wellTyped]

theorem applyCommand_ok_need {env : Env} {st st2 : LoopState} {c : Command}
    (h : applyCommand env st c = StepRes.ok st2) :
    st2.need_to_write = (st.need_to_write || isMutating c) := by
  cases c with
  | Clear f =>
    simp only [applyCommand, StepRes.ok.injEq] at h
    rw [← h]; simp [isMutating]
  | Print f =>
    cases f <;> simp only [applyCommand] at h <;> repeat' split at h
    all_goals first
      | (simp only [StepRes.ok.injEq] at h; rw [← h]; simp [isMutating])
      | simp at h
  | Set f d =>
    cases f <;> cases d <;> simp only [applyCommand] at h <;> repeat' split at h
    all_goals first
      | (simp only [StepRes.ok.injEq] at h; rw [← h]; simp [isMutating])
      | simp at h

theorem applyCommand_not_panic {env : Env} {st : LoopState} {c : Command}
    (hw : wellTyped c) (msg : String) (st2 : LoopState) :
    applyCommand env st c ≠ StepRes.panicked msg st2 := by
  intro h
  cases c with
  | Clear f => simp [applyCommand] at h
  | Print f =>
    cases f <;> simp only [applyCommand] at h <;> repeat' split at h
    all_goals simp at h
  | Set f d =>
    cases f with
    | Track => obtain ⟨i, rfl⟩ := hw; simp [applyCommand] at h
    | Year => obtain ⟨i, rfl⟩ := hw; simp [applyCommand] at h
    | Disc => obtain ⟨i, rfl⟩ := hw; simp [applyCommand] at h
    | Title => obtain ⟨s, rfl⟩ := hw; simp [applyCommand] at h
    | Artist => obtain ⟨s, rfl⟩ := hw; simp [applyCommand] at h
    | Album => obtain ⟨s, rfl⟩ := hw; simp [applyCommand] at h
    | AlbumArtist => obtain ⟨s, rfl⟩ := hw; simp [applyCommand] at h
    | Image =>
      have hb : ∀ mm, getImageBytes env d ≠ BytesRes.panicked mm := by
        rcases hw with ⟨s, rfl⟩ | rfl
        · intro mm hb
          simp only [getImageBytes] at hb
          cases hr : env.readFileBytes s <;> rw [hr] at hb <;> simp at hb
        · intro mm hb
          simp only [getImageBytes] at hb
          cases hr : env.stdinBytes <;> rw [hr] at hb <;> simp at hb
      have hd : d ≠ Data.Int 0 := by
        rcases hw with ⟨s, rfl⟩ | rfl <;> simp
      simp only [applyCommand] at h
      cases hg : getImageBytes env d with
      | ok b =>
        rw [hg] at h
        dsimp only at h
        cases hm : sniffMime (env.sniff b) with
        | none => rw [hm] at h; simp at h
        | some mt => rw [hm] at h; simp at h
      | failed e => rw [hg] at h; simp at h
      | panicked mm => exact hb mm hg

theorem runCommands_ok_need {env : Env} :
    ∀ (cs : List Command) (st st2 : LoopState),
    runCommands env st cs = StepRes.ok st2 →
    st2.need_to_write = (st.need_to_write || cs.any isMutating) := by
  intro cs
  induction cs with
  | nil =>
    intro st st2 h
    simp only [runCommands, StepRes.ok.injEq] at h
    rw [h]; simp
  | cons c rest ih =>
    intro st st2 h
    simp only [runCommands] at h
    cases ha : applyCommand env st c with
    | ok stm =>
      rw [ha] at h
      rw [ih stm st2 h, applyCommand_ok_need ha]
      simp [Bool.or_assoc]
    | failed e s => rw [ha] at h; exact absurd h (by simp)
    | panicked mm s => rw [ha] at h; exact absurd h (by simp)

theorem runCommands_not_panic {env : Env} :
    ∀ (cs : List Command), (∀ c ∈ cs, wellTyped c) →
    ∀ (st : LoopState) (msg : String) (st2 : LoopState),
    runCommands env st cs ≠ StepRes.panicked msg st2 := by
  intro cs
  induction cs with
  | nil => intro _ st msg st2 h; simp [runCommands] at h
  | cons c rest ih =>
    intro hw st msg st2 h
    simp only [runCommands] at h
    cases ha : applyCommand env st c with
    | ok stm =>
      rw [ha] at h
      exact ih (fun x hx => hw x (List.mem_cons_of_mem c hx)) stm msg st2 h
    | failed e s => rw [ha] at h; exact absurd h (by simp)
    | panicked mm s =>
      exact applyCommand_not_panic (hw c (List.mem_cons_self c rest)) mm s ha

theorem execFiles_not_panic {env : Env} {cmds : List Command}
    (hw : ∀ c ∈ cmds, wellTyped c) :
    ∀ fs, ((execFiles env cmds fs).status).isPanic = false := by
  intro fs
  induction fs with
  | nil => rfl
  | cons f rest ih =>
    simp only [execFiles]
    cases ho : env.openTag f with
    | none => rfl
    | some t =>
      by_cases he : cmds.isEmpty
      · simp only [he, if_true, ite_true]
        exact ih
      · simp only [he, if_false, Bool.false_eq_true, ite_false]
        cases hr : runCommands env
            { tag := t, need_to_write := false, did_print := false, out := [] }
            cmds with
        | failed e s => rfl
        | panicked mm s => exact absurd hr (runCommands_not_panic cmds hw _ mm s)
        | ok s =>
          by_cases hn : s.need_to_write
          · simp only [hn, if_true, ite_true]
            by_cases hwk : env.writeOk f
            · simp only [hwk, if_true, ite_true]
              exact ih
            · simp only [hwk, if_false, Bool.false_eq_true, ite_false]
              rfl
          · simp only [hn, if_false, Bool.false_eq_true, ite_false]
            exact ih

theorem resolve_guards {isFile : String → Bool} {name : String} {m : Matches}
    (hfree : m.free ≠ []) (hfiles : ∀ g ∈ m.free, isFile g = true)
    (hhelp : m.help = false) :
    resolve isFile name m =
      (match fieldCommands isFile m with
       | Except.error e => Except.error e
       | Except.ok cmds =>
         match processClear (usedFields cmds) m.clear with
         | Except.error e => Except.error e
         | Except.ok ccs => Except.ok (cmds ++ ccs, m.free)) := by
  unfold resolve
  rw [if_neg (fun h0 => hfree (List.length_eq_zero.mp h0))]
  rw [List.find?_eq_none.mpr (fun x hx => by simp [hfiles x hx])]
  dsimp only
  rw [if_neg (by simp [hhelp])]

/-- C9: the comment option is accepted by the argument parser but never
produces a command: resolution returns the same result whether the comment
option is absent, present bare, or present with any value. -/
theorem c9_comment_ignored :
    ∀ (isFile : String → Bool) (name : String) (m : Matches)
      (x : Option (Option String)),
    resolve isFile name { m with comment := x } = resolve isFile name m := by
  intro isFile name m x
  cases m
  rfl

/-- C3: with no field options and no clear options resolution yields the
empty command list, and executing an empty command list prints exactly the
eight-line summary (fixed order Disc, Track, Title, Artist, Album,
AlbumArtist, Image, Year; stored or default values; image presence as text,
never raw bytes) and performs no write-back. -/
theorem c3_empty_summary :
    ∀ (env : Env) (f : String) (t : TagData) (isFile : String → Bool)
      (name : String) (m : Matches),
    env.openTag f = some t →
    noFieldOptions m → m.help = false →
    m.free ≠ [] → (∀ g ∈ m.free, isFile g = true) →
    resolve isFile name m = Except.ok ([], m.free) ∧
    execFiles env [] [f] =
      { status := ExecStatus.done
        output := [Out.str (printout t ++ "\n")]
        writes := [] } ∧
    printout t =
      "Disc: " ++ toString (t.disc.getD 0) ++ "\n" ++
      "Track: " ++ toString (t.track.getD 0) ++ "\n" ++
      "Title: " ++ t.title.getD "" ++ "\n" ++
      "Artist: " ++ t.artist.getD "" ++ "\n" ++
      "Album: " ++ t.album.getD "" ++ "\n" ++
      "Album Arist: " ++ t.albumartist.getD "" ++ "\n" ++
      "Image: " ++ (match t.cover with
                    | some _ => "Present"
                    | none => "No image") ++ "\n" ++
      "Year: " ++ toString (t.year.getD 0) ++ "\n" := by
  intro env f t isFile name m hopen hno hhelp hfree hfiles
  obtain ⟨htr, hyr, hdc, hti, har, hal, haa, him, hcl⟩ := hno
  refine ⟨?_, ?_, rfl⟩
  · rw [resolve_guards hfree hfiles hhelp]
    unfold fieldCommands
    rw [htr, hyr, hdc, hti, har, hal, haa, him, hcl]
    simp [intFieldCmd, strFieldCmd, imageFieldCmd, processClear, usedFields]
  · simp [execFiles, hopen]

/-- C3 witness: the optionless invocation on a file opening to an empty tag
container. -/
theorem c3_empty_summary_witness :
    resolve (fun _ => true) "insignia" (baseMatches "f.mp3") =
      Except.ok ([], ["f.mp3"]) ∧
    execFiles envW [] ["f.mp3"] =
      { status := ExecStatus.done
        output := [Out.str (printout tagW ++ "\n")]
        writes := [] } := by
  have h := c3_empty_summary envW "f.mp3" tagW (fun _ => true) "insignia"
    (baseMatches "f.mp3") rfl
    ⟨rfl, rfl, rfl, rfl, rfl, rfl, rfl, rfl, rfl⟩ rfl (by decide)
    (fun g _ => rfl)
  exact ⟨h.1, h.2.1⟩

/-- C2: executing Set(Track, Int i) or Set(Disc, Int i) stores the clamp
max(i, 0) as an unsigned count, while Set(Year, Int i) stores i unchanged
as a signed value; the write-back records exactly that tag state. -/
theorem c2_int_set_clamp :
    ∀ (env : Env) (f : String) (t : TagData) (i : Int),
    env.openTag f = some t → env.writeOk f = true →
    (execFiles env [Command.Set Field.Track (Data.Int i)] [f]).writes =
      [(f, { t with track := some (max i 0).toNat })] ∧
    (execFiles env [Command.Set Field.Disc (Data.Int i)] [f]).writes =
      [(f, { t with disc := some (max i 0).toNat })] ∧
    (execFiles env [Command.Set Field.Year (Data.Int i)] [f]).writes =
      [(f, { t with year := some i })] := by
  intro env f t i hopen hw
  refine ⟨?_, ?_, ?_⟩ <;>
    simp [execFiles, hopen, hw, runCommands, applyCommand]

/-- C2 witness: --track -5 stores 0 while --year -5 stores -5. -/
theorem c2_int_set_clamp_witness :
    (execFiles envW [Command.Set Field.Track (Data.Int (-5))] ["f.mp3"]).writes =
      [("f.mp3", { tagW with track := some 0 })] ∧
    (execFiles envW [Command.Set Field.Year (Data.Int (-5))] ["f.mp3"]).writes =
      [("f.mp3", { tagW with year := some (-5) })] := by
  have h := c2_int_set_clamp envW "f.mp3" tagW (-5) rfl rfl
  exact ⟨h.1, h.2.2⟩

/-- C5: a Set(Image, _) whose byte payload sniffs to none of PNG, JPEG,
TIFF, BMP, GIF (including undetectable bytes) fails with the
unsupported-image-format error and exit code 2, with no cover stored and no
write-back, so the target file is not mutated. -/
theorem c5_unsupported_image :
    ∀ (env : Env) (f : String) (t : TagData) (d : Data) (b : List Nat),
    env.openTag f = some t →
    getImageBytes env d = BytesRes.ok b →
    sniffMime (env.sniff b) = none →
    execFiles env [Command.Set Field.Image d] [f] =
      { status := ExecStatus.failed
          { error_code := 2
            error_str := "Unsupported image format (Supported: Png, Jpeg, Tiff, Bmp, Gif)" }
        output := []
        writes := [] } := by
  intro env f t d b hopen hg hm
  simp [execFiles, hopen, runCommands, applyCommand, hg, hm]

/-- C5 witness: stdin bytes that the sniffer does not recognise. -/
theorem c5_unsupported_image_witness :
    execFiles envNoSniff [Command.Set Field.Image Data.StdIn] ["f.mp3"] =
      { status := ExecStatus.failed
          { error_code := 2
            error_str := "Unsupported image format (Supported: Png, Jpeg, Tiff, Bmp, Gif)" }
        output := []
        writes := [] } :=
  c5_unsupported_image envNoSniff "f.mp3" tagW Data.StdIn [9] rfl rfl rfl

/-- C4: a successful resolve returns the Set/Print commands in the fixed
field order Track, Year, Disc, Title, Artist, Album, AlbumArtist, Image
(one command per present option), followed by the Clear commands in the
order the clear options were given. -/
theorem c4_command_order :
    ∀ (isFile : String → Bool) (name : String) (m : Matches)
      (cmds : List Command) (files : List String),
    resolve isFile name m = Except.ok (cmds, files) →
    ∃ ccs, cmds = specFieldCmds m ++ ccs ∧
      List.map str_to_field m.clear = List.map clearOf ccs := by
  intro isFile name m cmds files h
  obtain ⟨ccs, _, hpc, hcmds, _⟩ := resolve_ok h
  exact ⟨ccs, hcmds, processClear_ok_map _ _ ccs hpc⟩

/-- C4 witness: --track 7 --title --clear album resolves to the Set, then
the Print, then the Clear. -/
theorem c4_command_order_witness :
    ∃ ccs,
      [Command.Set Field.Track (Data.Int 7), Command.Print Field.Title,
        Command.Clear Field.Album] = specFieldCmds mOrderW ++ ccs ∧
      List.map str_to_field mOrderW.clear = List.map clearOf ccs := by
  exact c4_command_order (fun _ => true) "insignia" mOrderW
    [Command.Set Field.Track (Data.Int 7), Command.Print Field.Title,
      Command.Clear Field.Album] ["f.mp3"] (by rfl)

/-- C8: every command list a successful resolve returns pairs each Set
command's field with its expected Data variant, and executing such a list
never reaches one of the panic branches in the Set dispatch. -/
theorem c8_wellTyped_no_panic :
    ∀ (isFile : String → Bool) (name : String) (m : Matches)
      (cmds : List Command) (files : List String),
    resolve isFile name m = Except.ok (cmds, files) →
    (∀ c ∈ cmds, wellTyped c) ∧
    ∀ (env : Env) (fs : List String),
      ((execFiles env cmds fs).status).isPanic = false := by
  intro isFile name m cmds files h
  obtain ⟨ccs, _, hpc, hcmds, _⟩ := resolve_ok h
  have hwt : ∀ c ∈ cmds, wellTyped c := by
    intro c hc
    rw [hcmds] at hc
    rcases List.mem_append.mp hc with hc | hc
    · exact wellTyped_specFieldCmds c hc
    · obtain ⟨fd, rfl, _⟩ := processClear_ok_clears _ _ ccs hpc c hc
      simp [wellTyped]
  exact ⟨hwt, fun env fs => execFiles_not_panic hwt fs⟩

/-- C8 witness: the resolved list of the order witness is well-typed and
its execution does not panic. -/
theorem c8_wellTyped_no_panic_witness :
    (∀ c ∈ [Command.Set Field.Track (Data.Int 7), Command.Print Field.Title,
      Command.Clear Field.Album], wellTyped c) ∧
    ∀ (env : Env) (fs : List String),
      ((execFiles env [Command.Set Field.Track (Data.Int 7),
        Command.Print Field.Title, Command.Clear Field.Album] fs).status).isPanic =
        false := by
  exact c8_wellTyped_no_panic (fun _ => true) "insignia" mOrderW _ ["f.mp3"] (by rfl)

/-- C1: a field named both in a clear option and in a present set/print
option makes resolution fail with the clear/set-print conflict error (exit
code 5) whenever the earlier checks pass, and a successful resolve never
returns a list containing the same field in both a Clear command and a
Set or Print command. -/
theorem c1_clear_set_conflict :
    (∀ (isFile : String → Bool) (name : String) (m : Matches)
       (s : String) (fd : Field),
       m.free ≠ [] →
       (∀ g ∈ m.free, isFile g = true) →
       m.help = false →
       (∀ s2 ∈ m.clear, (str_to_field s2).isSome = true) →
       (∃ l, fieldCommands isFile m = Except.ok l) →
       s ∈ m.clear → str_to_field s = some fd → optPresent m fd = true →
       ∃ msg, resolve isFile name m =
         Except.error { error_code := 5, error_str := msg }) ∧
    (∀ (isFile : String → Bool) (name : String) (m : Matches)
       (cmds : List Command) (files : List String) (fd : Field),
       resolve isFile name m = Except.ok (cmds, files) →
       Command.Clear fd ∈ cmds →
       (Command.Print fd ∈ cmds ∨ ∃ d, Command.Set fd d ∈ cmds) → False) := by
  constructor
  · intro isFile name m s fd hfree hfiles hhelp hknown hfc hs hsf hpres
    obtain ⟨l, hl⟩ := hfc
    have hused : fd ∈ usedFields l := by
      rw [fieldCommands_ok hl]
      exact mem_usedFields_specFieldCmds hpres
    obtain ⟨msg, hmsg⟩ :=
      processClear_conflict (usedFields l) m.clear hknown s fd hs hsf hused
    refine ⟨msg, ?_⟩
    rw [resolve_guards hfree hfiles hhelp, hl]
    dsimp only
    rw [hmsg]
  · intro isFile name m cmds files fd h hclear hsp
    obtain ⟨ccs, _, hpc, hcmds, _⟩ := resolve_ok h
    subst hcmds
    rcases List.mem_append.mp hclear with hcf | hcc
    · exact clear_not_mem_specFieldCmds hcf
    · obtain ⟨fd2, heq, hnot⟩ := processClear_ok_clears _ _ ccs hpc _ hcc
      injection heq with heq2
      subst heq2
      rcases hsp with hp | ⟨d, hset⟩
      · rcases List.mem_append.mp hp with h1 | h1
        · exact hnot (mem_usedFields_of_print h1)
        · obtain ⟨fd3, heq3, _⟩ := processClear_ok_clears _ _ ccs hpc _ h1
          simp at heq3
      · rcases List.mem_append.mp hset with h1 | h1
        · exact hnot (mem_usedFields_of_set h1)
        · obtain ⟨fd3, heq3, _⟩ := processClear_ok_clears _ _ ccs hpc _ h1
          simp at heq3

/-- C1 witness: --title foo --clear title fails with exit code 5. -/
theorem c1_clear_set_conflict_witness :
    ∃ msg, resolve (fun _ => true) "insignia" mConflictW =
      Except.error { error_code := 5, error_str := msg } := by
  exact c1_clear_set_conflict.1 (fun _ => true) "insignia" mConflictW "title"
    Field.Title (by decide) (fun g _ => rfl) rfl (by decide)
    ⟨[Command.Set Field.Title (Data.Str "foo")], by rfl⟩ (by decide) (by rfl)
    (by rfl)

/-- C6 counterexample: the claim demands exit code 0 for every argument
list carrying the help flag, but with no free arguments the code fails
with the no-files error, exit code 6. -/
theorem c6_help_counterexample :
    errCode (resolve (fun _ => true) "insignia" mHelpOnly) = some 6 ∧
    errCode (resolve (fun _ => true) "insignia" mHelpOnly) ≠ some 0 := by
  exact ⟨rfl, by decide⟩

/-- C6 (amended): the help short-circuit fires only after file validation;
when the help flag is present and the free arguments are nonempty and all
pass the file check, resolution fails with the usage text and exit code 0. -/
theorem c6_help_short_circuit :
    ∀ (isFile : String → Bool) (name : String) (m : Matches),
    m.help = true → m.free ≠ [] → (∀ g ∈ m.free, isFile g = true) →
    resolve isFile name m =
      Except.error { error_code := 0, error_str := usageText name } := by
  intro isFile name m hh hfree hfiles
  unfold resolve
  rw [if_neg (fun h0 => hfree (List.length_eq_zero.mp h0))]
  rw [List.find?_eq_none.mpr (fun x hx => by simp [hfiles x hx])]
  dsimp only
  rw [if_pos hh]

/-- C6 witness: --help with one existing file exits 0 with the usage
text. -/
theorem c6_help_short_circuit_witness :
    resolve (fun _ => true) "insignia" { mHelpOnly with free := ["f.mp3"] } =
      Except.error { error_code := 0, error_str := usageText "insignia" } :=
  c6_help_short_circuit (fun _ => true) "insignia"
    { mHelpOnly with free := ["f.mp3"] } rfl (by decide) (fun g _ => rfl)

/-- C10: when a nonempty command list executes successfully on a file, the
Tag Store write-back happens iff the list contains at least one Set or
Clear command (Print-only lists never write back; any Set or Clear, even a
Clear of an absent field, always does). -/
theorem c10_writeback_iff_mutating :
    ∀ (env : Env) (cs : List Command) (f : String) (t : TagData),
    cs ≠ [] →
    env.openTag f = some t →
    (execFiles env cs [f]).status = ExecStatus.done →
    ((execFiles env cs [f]).writes ≠ [] ↔ ∃ c ∈ cs, isMutating c = true) := by
  intro env cs f t hne hopen hdone
  have hie : cs.isEmpty = false := by
    cases cs with
    | nil => exact absurd rfl hne
    | cons a b => rfl
  simp only [execFiles, hopen, hie, Bool.false_eq_true, if_false, ite_false] at hdone ⊢
  cases hr : runCommands env
      { tag := t, need_to_write := false, did_print := false, out := [] } cs with
  | failed e s => rw [hr] at hdone; simp at hdone
  | panicked mm s => rw [hr] at hdone; simp at hdone
  | ok s =>
    rw [hr] at hdone
    dsimp only at hdone ⊢
    have hneed : s.need_to_write = cs.any isMutating := by
      have h2 := runCommands_ok_need cs _ s hr
      simpa using h2
    by_cases hn : s.need_to_write = true
    · rw [hn] at hdone ⊢
      simp only [if_true, ite_true] at hdone ⊢
      by_cases hwk : env.writeOk f = true
      · rw [hwk] at hdone ⊢
        simp only [if_true, ite_true] at hdone ⊢
        constructor
        · intro _
          have hany : cs.any isMutating = true := by rw [← hneed, hn]
          rcases List.any_eq_true.mp hany with ⟨c, hc, hmc⟩
          exact ⟨c, hc, hmc⟩
        · intro _
          simp [execFiles]
      · have hwk2 : env.writeOk f = false := by simpa using hwk
        rw [hwk2] at hdone
        simp only [Bool.false_eq_true, if_false, ite_false] at hdone
        exact absurd hdone (by simp)
    · have hn2 : s.need_to_write = false := by simpa using hn
      rw [hn2] at hdone ⊢
      simp only [Bool.false_eq_true, if_false, ite_false] at hdone ⊢
      constructor
      · intro hwlist
        exact absurd (by simp [execFiles]) hwlist
      · rintro ⟨c, hc, hmc⟩
        have hany : cs.any isMutating = true := List.any_eq_true.mpr ⟨c, hc, hmc⟩
        rw [← hneed, hn2] at hany
        exact absurd hany (by simp)

/-- C10 witness: clearing an absent field still triggers a write-back. -/
theorem c10_writeback_iff_mutating_witness :
    (execFiles envW [Command.Clear Field.Title] ["f.mp3"]).writes ≠ [] := by
  refine (c10_writeback_iff_mutating envW [Command.Clear Field.Title] "f.mp3"
    tagW (by decide) rfl (by rfl)).mpr ?_
  exact ⟨Command.Clear Field.Title, by decide, rfl⟩

theorem toString_toNat {i : Int} (h : 0 ≤ i) :
    toString i.toNat = toString i := by
  obtain ⟨n, rfl⟩ := Int.eq_ofNat_of_zero_le h
  rfl

/-- C7: per-field set/print round trip for the seven non-image fields: for
any value in the field's storable domain, resolving and executing the Set
invocation on a file and then resolving and executing the bare Print
invocation on the written state prints back exactly the value that was
set. -/
theorem c7_set_print_round_trip :
    ∀ (isFile : String → Bool) (env : Env) (name : String) (fd : Field)
      (v : String) (file : String) (t0 : TagData),
    fd ≠ Field.Image →
    validValue fd v = true →
    isFile file = true →
    env.openTag file = some t0 →
    env.writeOk file = true →
    ∃ cmds t1,
      resolve isFile name (setMatches fd v file) = Except.ok (cmds, [file]) ∧
      (execFiles env cmds [file]).status = ExecStatus.done ∧
      (execFiles env cmds [file]).writes = [(file, t1)] ∧
      resolve isFile name (printMatches fd file) =
        Except.ok ([Command.Print fd], [file]) ∧
      (execFiles (withTag env file t1) [Command.Print fd] [file]).status =
        ExecStatus.done ∧
      (execFiles (withTag env file t1) [Command.Print fd] [file]).output =
        echoOut fd v ∧
      (execFiles (withTag env file t1) [Command.Print fd] [file]).writes =
        [] := by
  intro isFile env name fd v file t0 hni hval hfile hopen hwrite
  have hfl : ∀ g ∈ [file], isFile g = true := by
    intro g hg
    rw [List.mem_singleton.mp hg]
    exact hfile
  cases fd with
  | Image => exact absurd rfl hni
  | Track =>
    simp only [validValue] at hval
    cases hp : parseI32 (rustTrim v) with
    | none => rw [hp] at hval; simp at hval
    | some i =>
      rw [hp] at hval
      dsimp only at hval
      have hi : 0 ≤ i := of_decide_eq_true hval
      refine ⟨[Command.Set Field.Track (Data.Int i)],
        { t0 with track := some i.toNat }, ?_, ?_, ?_, ?_, ?_, ?_, ?_⟩
      · rw [resolve_guards (by simp [setMatches, baseMatches]) hfl
          (by simp [setMatches, baseMatches])]
        simp [setMatches, baseMatches, fieldCommands, intFieldCmd,
          strFieldCmd, imageFieldCmd, processClear, usedFields, hp]
      · simp [execFiles, hopen, hwrite, runCommands, applyCommand]
      · simp [execFiles, hopen, hwrite, runCommands, applyCommand,
          max_eq_left hi]
      · rw [resolve_guards (by simp [printMatches, baseMatches]) hfl
          (by simp [printMatches, baseMatches])]
        simp [printMatches, baseMatches, fieldCommands, intFieldCmd,
          strFieldCmd, imageFieldCmd, processClear, usedFields]
      · simp [execFiles, withTag, runCommands, applyCommand]
      · simp [execFiles, withTag, runCommands, applyCommand, echoOut, hp,
          toString_toNat hi]
      · simp [execFiles, withTag, runCommands, applyCommand]
  | Year =>
    simp only [validValue] at hval
    cases hp : parseI32 (rustTrim v) with
    | none => rw [hp] at hval; simp at hval
    | some i =>
      refine ⟨[Command.Set Field.Year (Data.Int i)],
        { t0 with year := some i }, ?_, ?_, ?_, ?_, ?_, ?_, ?_⟩
      · rw [resolve_guards (by simp [setMatches, baseMatches]) hfl
          (by simp [setMatches, baseMatches])]
        simp [setMatches, baseMatches, fieldCommands, intFieldCmd,
          strFieldCmd, imageFieldCmd, processClear, usedFields, hp]
      · simp [execFiles, hopen, hwrite, runCommands, applyCommand]
      · simp [execFiles, hopen, hwrite, runCommands, applyCommand]
      · rw [resolve_guards (by simp [printMatches, baseMatches]) hfl
          (by simp [printMatches, baseMatches])]
        simp [printMatches, baseMatches, fieldCommands, intFieldCmd,
          strFieldCmd, imageFieldCmd, processClear, usedFields]
      · simp [execFiles, withTag, runCommands, applyCommand]
      · simp [execFiles, withTag, runCommands, applyCommand, echoOut, hp]
      · simp [execFiles, withTag, runCommands, applyCommand]
  | Disc =>
    simp only [validValue] at hval
    cases hp : parseI32 (rustTrim v) with
    | none => rw [hp] at hval; simp at hval
    | some i =>
      rw [hp] at hval
      dsimp only at hval
      have hi : 0 ≤ i := of_decide_eq_true hval
      refine ⟨[Command.Set Field.Disc (Data.Int i)],
        { t0 with disc := some i.toNat }, ?_, ?_, ?_, ?_, ?_, ?_, ?_⟩
      · rw [resolve_guards (by simp [setMatches, baseMatches]) hfl
          (by simp [setMatches, baseMatches])]
        simp [setMatches, baseMatches, fieldCommands, intFieldCmd,
          strFieldCmd, imageFieldCmd, processClear, usedFields, hp]
      · simp [execFiles, hopen, hwrite, runCommands, applyCommand]
      · simp [execFiles, hopen, hwrite, runCommands, applyCommand,
          max_eq_left hi]
      · rw [resolve_guards (by simp [printMatches, baseMatches]) hfl
          (by simp [printMatches, baseMatches])]
        simp [printMatches, baseMatches, fieldCommands, intFieldCmd,
          strFieldCmd, imageFieldCmd, processClear, usedFields]
      · simp [execFiles, withTag, runCommands, applyCommand]
      · simp [execFiles, withTag, runCommands, applyCommand, echoOut, hp,
          toString_toNat hi]
      · simp [execFiles, withTag, runCommands, applyCommand]
  | Title =>
    refine ⟨[Command.Set Field.Title (Data.Str v)],
      { t0 with title := some v }, ?_, ?_, ?_, ?_, ?_, ?_, ?_⟩
    · rw [resolve_guards (by simp [setMatches, baseMatches]) hfl
        (by simp [setMatches, baseMatches])]
      simp [setMatches, baseMatches, fieldCommands, intFieldCmd,
        strFieldCmd, imageFieldCmd, processClear, usedFields]
    · simp [execFiles, hopen, hwrite, runCommands, applyCommand]
    · simp [execFiles, hopen, hwrite, runCommands, applyCommand]
    · rw [resolve_guards (by simp [printMatches, baseMatches]) hfl
        (by simp [printMatches, baseMatches])]
      simp [printMatches, baseMatches, fieldCommands, intFieldCmd,
        strFieldCmd, imageFieldCmd, processClear, usedFields]
    · simp [execFiles, withTag, runCommands, applyCommand]
    · simp [execFiles, withTag, runCommands, applyCommand, echoOut]
    · simp [execFiles, withTag, runCommands, applyCommand]
  | Artist =>
    refine ⟨[Command.Set Field.Artist (Data.Str v)],
      { t0 with artist := some v }, ?_, ?_, ?_, ?_, ?_, ?_, ?_⟩
    · rw [resolve_guards (by simp [setMatches, baseMatches]) hfl
        (by simp [setMatches, baseMatches])]
      simp [setMatches, baseMatches, fieldCommands, intFieldCmd,
        strFieldCmd, imageFieldCmd, processClear, usedFields]
    · simp [execFiles, hopen, hwrite, runCommands, applyCommand]
    · simp [execFiles, hopen, hwrite, runCommands, applyCommand]
    · rw [resolve_guards (by simp [printMatches, baseMatches]) hfl
        (by simp [printMatches, baseMatches])]
      simp [printMatches, baseMatches, fieldCommands, intFieldCmd,
        strFieldCmd, imageFieldCmd, processClear, usedFields]
    · simp [execFiles, withTag, runCommands, applyCommand]
    · simp [execFiles, withTag, runCommands, applyCommand, echoOut]
    · simp [execFiles, withTag, runCommands, applyCommand]
  | Album =>
    refine ⟨[Command.Set Field.Album (Data.Str v)],
      { t0 with album := some v }, ?_, ?_, ?_, ?_, ?_, ?_, ?_⟩
    · rw [resolve_guards (by simp [setMatches, baseMatches]) hfl
        (by simp [setMatches, baseMatches])]
      simp [setMatches, baseMatches, fieldCommands, intFieldCmd,
        strFieldCmd, imageFieldCmd, processClear, usedFields]
    · simp [execFiles, hopen, hwrite, runCommands, applyCommand]
    · simp [execFiles, hopen, hwrite, runCommands, applyCommand]
    · rw [resolve_guards (by simp [printMatches, baseMatches]) hfl
        (by simp [printMatches, baseMatches])]
      simp [printMatches, baseMatches, fieldCommands, intFieldCmd,
        strFieldCmd, imageFieldCmd, processClear, usedFields]
    · simp [execFiles, withTag, runCommands, applyCommand]
    · simp [execFiles, withTag, runCommands, applyCommand, echoOut]
    · simp [execFiles, withTag, runCommands, applyCommand]
  | AlbumArtist =>
    refine ⟨[Command.Set Field.AlbumArtist (Data.Str v)],
      { t0 with albumartist := some v }, ?_, ?_, ?_, ?_, ?_, ?_, ?_⟩
    · rw [resolve_guards (by simp [setMatches, baseMatches]) hfl
        (by simp [setMatches, baseMatches])]
      simp [setMatches, baseMatches, fieldCommands, intFieldCmd,
        strFieldCmd, imageFieldCmd, processClear, usedFields]
    · simp [execFiles, hopen, hwrite, runCommands, applyCommand]
    · simp [execFiles, hopen, hwrite, runCommands, applyCommand]
    · rw [resolve_guards (by simp [printMatches, baseMatches]) hfl
        (by simp [printMatches, baseMatches])]
      simp [printMatches, baseMatches, fieldCommands, intFieldCmd,
        strFieldCmd, imageFieldCmd, processClear, usedFields]
    · simp [execFiles, withTag, runCommands, applyCommand]
    · simp [execFiles, withTag, runCommands, applyCommand, echoOut]
    · simp [execFiles, withTag, runCommands, applyCommand]

/-- C7 witness: setting the title to "hello" and printing it back. -/
theorem c7_set_print_round_trip_witness :
    ∃ cmds t1,
      resolve (fun _ => true) "insignia"
          (setMatches Field.Title "hello" "f.mp3") =
        Except.ok (cmds, ["f.mp3"]) ∧
      (execFiles envW cmds ["f.mp3"]).status = ExecStatus.done ∧
      (execFiles envW cmds ["f.mp3"]).writes = [("f.mp3", t1)] ∧
      resolve (fun _ => true) "insignia" (printMatches Field.Title "f.mp3") =
        Except.ok ([Command.Print Field.Title], ["f.mp3"]) ∧
      (execFiles (withTag envW "f.mp3" t1)
          [Command.Print Field.Title] ["f.mp3"]).status = ExecStatus.done ∧
      (execFiles (withTag envW "f.mp3" t1)
          [Command.Print Field.Title] ["f.mp3"]).output =
        echoOut Field.Title "hello" ∧
      (execFiles (withTag envW "f.mp3" t1)
          [Command.Print Field.Title] ["f.mp3"]).writes = [] :=
  c7_set_print_round_trip (fun _ => true) envW "insignia" Field.Title "hello"
    "f.mp3" tagW (by decide) rfl rfl rfl rfl

end Insignia
